import Mathlib

set_option maxRecDepth 100000

/-!
Verification of the MarketDataCollector repository: a shallow embedding of
the collector, anomaly engine, notifier, exchange client and backtester
(src/services/collector.py, src/services/anomaly.py, src/services/notifier.py,
src/services/binance_api.py, src/backtest_oi_flush.py, src/optimizer.py)
together with theorems settling the specification claims.

Numeric values (prices, rates, percentages) are modelled as rationals;
timestamps as naturals.  Database reads/writes are modelled as explicit
lists of rows; the async structure is irrelevant to the claims and is
flattened into pure state passing.
-/

namespace MarketData

/-! ### Configuration constants (src/config.py) -/

def FUNDING_SPIKE_THRESHOLD : ℚ := 1 / 1000

def OI_SURGE_THRESHOLD : ℚ := 1 / 10

def OI_BUILDUP_THRESHOLD : ℚ := 3

def OI_BUILDUP_MIN_POINTS : ℕ := 12

def OI_FLUSH_DROP_PCT : ℚ := 2

def OI_FLUSH_CURRENT_MAX : ℚ := 2

def OI_FLUSH_LOOKBACK : ℕ := 24

def MASS_ALERT_THRESHOLD : ℕ := 5

def MASS_ALERT_WINDOW : ℚ := 60

def RETRY_CODES : List ℕ := [429, 500, 502, 503, 504]

def RETRY_MAX_WAIT : ℚ := 30

/-! ### Backtest parameters (src/backtest_oi_flush.py header) -/

def BUILDUP_THRESHOLD : ℚ := 3

def BUILDUP_MIN_POINTS : ℕ := 12

def FLUSH_DROP_PCT : ℚ := 2

def FLUSH_CURRENT_MAX : ℚ := 2

def WINDOW_SIZE : ℕ := 24

def SIGNAL_COOLDOWN : ℕ := 6

/-! ### Percent changes relative to the first sample

Both `check_oi_flush` (src/services/anomaly.py line 216) and `find_signals`
(src/backtest_oi_flush.py line 103) compute
`(oi - base_oi) / base_oi * 100` over the window, `base_oi` being the first
sample of the window.  Timestamps never influence the decision, so windows
are lists of OI values. -/

def pct_changes (history : List ℚ) : List ℚ :=
  match history with
  | [] => []
  | base :: _ => history.map (fun oi => (oi - base) / base * 100)

/-! ### The live run scanner (src/services/anomaly.py lines 220-234)

State: index `i`, `best_start`, `best_len`, `cur_start`, `cur_len`;
returns `(best_start, best_len)` of the first longest contiguous run of
entries `≥ θ`. -/

def run_scan_live_aux (θ : ℚ) : List ℚ → ℕ → ℕ → ℕ → ℕ → ℕ → ℕ × ℕ
  | [], _, bs, bl, _, _ => (bs, bl)
  | p :: rest, i, bs, bl, cs, cl =>
    if θ ≤ p then
      let cs' := if cl = 0 then i else cs
      let cl' := cl + 1
      if bl < cl' then run_scan_live_aux θ rest (i + 1) cs' cl' cs' cl'
      else run_scan_live_aux θ rest (i + 1) bs bl cs' cl'
    else run_scan_live_aux θ rest (i + 1) bs bl cs 0

def run_scan_live (θ : ℚ) (pcts : List ℚ) : ℕ × ℕ :=
  run_scan_live_aux θ pcts 0 0 0 0 0

/-- Peak pct during the buildup (src/services/anomaly.py lines 245-247):
the maximum of `pcts[bs]` and the slice `pcts[bs : bs + bl]` (the extra
first element of the Python `max` call is redundant since the slice
contains it). -/
def max_slice (l : List ℚ) (s n : ℕ) : ℚ :=
  ((l.drop s).take n).foldl max (l.getD s 0)

/-- The decision core of `check_oi_flush` (src/services/anomaly.py lines
195-257): given the OI history of the lookback window (oldest first),
`true` iff an `oi_flush` anomaly is emitted.  The cooldown gate (line 204)
and the context/description building (lines 258-332) are outside the
decision and are omitted; the function emits at most one anomaly. -/
def check_oi_flush_fires (history : List ℚ) : Bool :=
  if history.length < OI_FLUSH_LOOKBACK then false
  else
    match history with
    | [] => false
    | base :: _ =>
      if base ≤ 0 then false
      else
        let pcts := pct_changes history
        let bs := (run_scan_live OI_BUILDUP_THRESHOLD pcts).1
        let bl := (run_scan_live OI_BUILDUP_THRESHOLD pcts).2
        if bl < OI_BUILDUP_MIN_POINTS then false
        else
          if bs + bl - 1 < pcts.length - OI_BUILDUP_MIN_POINTS then false
          else
            let peak := max_slice pcts bs bl
            let current := pcts.getLastD 0
            if OI_FLUSH_CURRENT_MAX ≤ current then false
            else if peak - current < OI_FLUSH_DROP_PCT then false
            else true

/-! ### The backtest run scanner (src/backtest_oi_flush.py lines 110-123)

State: `best_len`, `best_peak`, a flag for `run_start is not None`,
`run_len`, `run_peak`; returns `(best_len, best_peak)`. -/

def run_scan_bt_aux (θ : ℚ) : List ℚ → ℕ → ℚ → Bool → ℕ → ℚ → ℕ × ℚ
  | [], bl, bp, _, _, _ => (bl, bp)
  | p :: rest, bl, bp, act, rl, rp =>
    if θ ≤ p then
      let rl' := if act then rl + 1 else 1
      let rp' := if act then max rp p else p
      if bl < rl' then run_scan_bt_aux θ rest rl' rp' true rl' rp'
      else run_scan_bt_aux θ rest bl bp true rl' rp'
    else run_scan_bt_aux θ rest bl bp false 0 0

def run_scan_bt (θ : ℚ) (pcts : List ℚ) : ℕ × ℚ :=
  run_scan_bt_aux θ pcts 0 0 false 0 0

/-- The per-window decision of `find_signals` (src/backtest_oi_flush.py
lines 98-128): given the window `oi_points[i - WINDOW_SIZE : i + 1]`
(25 OI values), `true` iff a signal is appended at index `i`.  The
per-symbol index cooldown (line 95) is outside the window decision. -/
def find_signal_window (window : List ℚ) : Bool :=
  match window with
  | [] => false
  | base :: _ =>
    if base ≤ 0 then false
    else
      let pcts := pct_changes window
      let current := pcts.getLastD 0
      if FLUSH_CURRENT_MAX ≤ current then false
      else
        let bl := (run_scan_bt BUILDUP_THRESHOLD pcts.dropLast).1
        let bp := (run_scan_bt BUILDUP_THRESHOLD pcts.dropLast).2
        if bl < BUILDUP_MIN_POINTS then false
        else if bp - current < FLUSH_DROP_PCT then false
        else true

/-- The recency condition of the live detector (src/services/anomaly.py
lines 239-242): the best run's last index reaches into the final
`OI_BUILDUP_MIN_POINTS` indices of the window. -/
def run_reaches_end (pcts : List ℚ) : Bool :=
  let bs := (run_scan_live OI_BUILDUP_THRESHOLD pcts).1
  let bl := (run_scan_live OI_BUILDUP_THRESHOLD pcts).2
  decide (pcts.length - OI_BUILDUP_MIN_POINTS ≤ bs + bl - 1)

/-! ### Scenario windows

`s1_window` realizes scenario S1: 24 OI samples with base 1000 whose pct
changes are the S1 sequence at indices 1..23.  Index 0 necessarily has
pct 0 (it is the base sample), where S1 lists 0.5; no OI series can give
its own base sample a nonzero pct change. -/

def s1_window : List ℚ :=
  [1000, 1008, 1012, 1019, 1025, 1031, 1034, 1036, 1038, 1040, 1043, 1045,
   1047, 1048, 1049, 1050, 1051, 1052, 1040, 1030, 1022, 1014, 1008, 1003]

/-- Scenario S2: the same series, but the last sample has pct 2.1. -/
def s2_window : List ℚ := s1_window.dropLast ++ [1021]

/-- A 25-sample backtest window whose 12-point buildup run sits at the
start of the window (indices 1..12, pct 3), followed by a flush
(current pct 0.5, drop 2.5). -/
def early_run_window : List ℚ :=
  [1000] ++ List.replicate 12 1030 ++ List.replicate 11 1000 ++ [1005]

/-! ### Price path and SHORT trade simulation
(src/backtest_oi_flush.py lines 145-170)

`build_price_path` returns two parallel lists built in lockstep from one
iteration; they are modelled zipped as one list of `((ts, price), pct)`
entries.  An OI point is `(timestamp, oi_usd, mark_price)` with the mark
price possibly missing (SQL NULL). -/

inductive ExitKind where
  | TP
  | SL
  | TIMEOUT
deriving DecidableEq

structure TradeExit where
  exit_type : ExitKind
  exit_price : ℚ
  exit_time : ℤ
  pnl_pct : ℚ
  hold_points : ℕ
deriving DecidableEq

def build_price_path (oi_points : List (ℤ × ℚ × Option ℚ)) (signal_idx : ℕ)
    (entry_price : ℚ) : List ((ℤ × ℚ) × ℚ) :=
  (oi_points.drop (signal_idx + 1)).filterMap fun tpl =>
    match tpl.2.2 with
    | some price =>
      if 0 < price then
        some ((tpl.1, price), (price - entry_price) / entry_price * 100)
      else none
    | none => none

/-- The function `simulate_trade` (src/backtest_oi_flush.py lines 157-170): scan the
path; `pts = k + 1`; TP when `pct ≤ -tp`, else SL when `pct ≥ sl`, else
TIMEOUT when `max_hold > 0` and `pts ≥ max_hold`; `None` (open trade)
when the data runs out. -/
def simulate_trade_aux : List ((ℤ × ℚ) × ℚ) → ℚ → ℚ → ℕ → ℕ → Option TradeExit
  | [], _, _, _, _ => none
  | ((ts, price), pct) :: rest, tp, sl, max_hold, k =>
    if pct ≤ -tp then some ⟨ExitKind.TP, price, ts, tp, k + 1⟩
    else if sl ≤ pct then some ⟨ExitKind.SL, price, ts, -sl, k + 1⟩
    else if 0 < max_hold ∧ max_hold ≤ k + 1 then
      some ⟨ExitKind.TIMEOUT, price, ts, -pct, k + 1⟩
    else simulate_trade_aux rest tp sl max_hold (k + 1)

def simulate_trade (path : List ((ℤ × ℚ) × ℚ)) (tp sl : ℚ) (max_hold : ℕ) :
    Option TradeExit :=
  simulate_trade_aux path tp sl max_hold 0

/-- Scenario S5: entry price 100 at the signal point, subsequent mark
prices 100.5, 99.0, 98.0, 97.0. -/
def s5_points : List (ℤ × ℚ × Option ℚ) :=
  [(0, 0, some 100), (1, 0, some (201 / 2)), (2, 0, some 99),
   (3, 0, some 98), (4, 0, some 97)]

/-! ### TP/SL grid search (src/optimizer.py) -/

def TP_RANGE : List ℚ :=
  [1/2, 3/4, 1, 5/4, 3/2, 2, 5/2, 3, 4, 5, 6, 7, 8, 9, 10]

def SL_RANGE : List ℚ :=
  [1/4, 1/2, 3/4, 1, 5/4, 3/2, 2, 5/2, 3, 4, 5, 6, 7, 8, 9, 10]

/-- The inner scan of `simulate_combo` (src/optimizer.py lines 32-38):
first pct hitting TP yields `tp`, first hitting SL yields `-sl`, `none`
when the loop finishes without a hit. -/
def combo_scan : List ℚ → ℚ → ℚ → Option ℚ
  | [], _, _ => none
  | pct :: rest, tp, sl =>
    if pct ≤ -tp then some tp
    else if sl ≤ pct then some (-sl)
    else combo_scan rest tp sl

/-- Per-signal P&L in `simulate_combo` (src/optimizer.py lines 27-41):
signals with an empty price path are skipped; when the path runs out
without a hit the trade is closed at the last price with `-pcts[-1]`. -/
def signal_pnl (pcts : List ℚ) (tp sl : ℚ) : Option ℚ :=
  if pcts.isEmpty then none
  else some ((combo_scan pcts tp sl).getD (-(pcts.getLastD 0)))

structure ComboStats where
  tp : ℚ
  sl : ℚ
  rr : ℚ
  total_pnl : ℚ
  avg_pnl : ℚ
  win_rate : ℚ
  trades : ℕ
  wins : ℕ
  losses : ℕ
  profit_factor : ℚ
deriving DecidableEq

/-- The function `simulate_combo` (src/optimizer.py lines 24-62). -/
def simulate_combo (signals : List (List ℚ)) (tp sl : ℚ) : Option ComboStats :=
  let results := signals.filterMap (fun s => signal_pnl s tp sl)
  if results.isEmpty then none
  else
    let trades := results.length
    let wins := (results.filter (fun r => decide (0 < r))).length
    let total_pnl := results.sum
    let gross_profit := (results.filter (fun r => decide (0 < r))).sum
    let gross_loss := |(results.filter (fun r => decide (r ≤ 0))).sum|
    some {
      tp := tp
      sl := sl
      rr := if 0 < sl then tp / sl else 999
      total_pnl := total_pnl
      avg_pnl := total_pnl / (trades : ℚ)
      win_rate := (wins : ℚ) / (trades : ℚ) * 100
      trades := trades
      wins := wins
      losses := trades - wins
      profit_factor := if 0 < gross_loss then gross_profit / gross_loss else 999 }

/-- The function `optimize_for_signals` (src/optimizer.py lines 65-73): keep a combo
only when the simulation exists and `stats.trades ≥ min_trades`. -/
def optimize_for_signals (signals : List (List ℚ)) (min_trades : ℕ) :
    List ComboStats :=
  (TP_RANGE.map (fun tp =>
    SL_RANGE.filterMap (fun sl =>
      match simulate_combo signals tp sl with
      | some stats => if min_trades ≤ stats.trades then some stats else none
      | none => none))).flatten

/-! ### Collector dedup and OI rows
(src/services/collector.py lines 102-111 and 233-247) -/

structure OiRow where
  timestamp : ℕ
  symbol_id : ℕ
  oi_contracts : ℚ
  oi_usd : ℚ
  mark_price : ℚ
deriving DecidableEq

/-- Python `mark_prices.get(symbol, 0)` (src/services/collector.py line 240). -/
def mark_price_get (mark_prices : List (String × ℚ)) (symbol : String) : ℚ :=
  ((mark_prices.find? (fun e => e.1 == symbol)).map (fun e => e.2)).getD 0

/-- The OI part of `_collect_symbol` (src/services/collector.py lines
233-247): compute `oi_usd = oi_contracts * mp`; emit a row iff the cache
has no value or a different value; update the cache on emission. -/
def collect_symbol_oi (cycle_ts sid : ℕ) (symbol : String)
    (mark_prices : List (String × ℚ)) (oi_contracts : ℚ)
    (cached : Option ℚ) : Option OiRow × Option ℚ :=
  let mp := mark_price_get mark_prices symbol
  let oi_usd := oi_contracts * mp
  if cached = none ∨ ¬ cached = some oi_contracts then
    (some ⟨cycle_ts, sid, oi_contracts, oi_usd, mp⟩, some oi_contracts)
  else (none, cached)

/-- The funding dedup step of `_five_min_loop` (src/services/collector.py
lines 102-111) for one symbol: skip when the cache holds the same rate,
else append `(cycle_ts, sid, rate, next_funding_time)` and update the
cache. -/
def funding_dedup (cycle_ts sid : ℕ) (rate : ℚ) (nft : ℕ)
    (cached : Option ℚ) : List (ℕ × ℕ × ℚ × ℕ) × Option ℚ :=
  if ¬ cached = none ∧ cached = some rate then ([], cached)
  else ([(cycle_ts, sid, rate, nft)], some rate)

/-! ### The capitulation detector and its cycle context
(src/services/anomaly.py lines 71-79, 91-103, 165-182;
src/services/collector.py lines 102-111, 147, 152-176;
src/database/db.py lines 445-455) -/

/-- The query `get_latest_funding` (src/database/db.py lines 445-455): the rate of
the stored funding row with the greatest timestamp
(`ORDER BY timestamp DESC LIMIT 1`). -/
def get_latest_funding (rows : List (ℕ × ℕ × ℚ × ℕ)) : Option ℚ :=
  (rows.foldl (fun acc r =>
    match acc with
    | none => some r
    | some b => if b.1 < r.1 then some r else some b) none).map
    (fun r => r.2.2.1)

/-- Funding-spike condition with stats absent
(src/services/anomaly.py lines 72-79): `|funding| > threshold`. -/
def funding_spike_fires (current_funding : ℚ) : Bool :=
  decide (FUNDING_SPIKE_THRESHOLD < |current_funding|)

/-- OI-surge condition with stats absent
(src/services/anomaly.py lines 92-103): `|change| > threshold`. -/
def oi_surge_fires (change : ℚ) : Bool :=
  decide (OI_SURGE_THRESHOLD < |change|)

/-- The combined-capitulation condition of `detect_anomalies`
(src/services/anomaly.py lines 165-172), cooldown permitting. -/
def capitulation_fires (has_funding_spike has_oi_surge : Bool)
    (prev_funding current_funding : Option ℚ) : Bool :=
  has_oi_surge && has_funding_spike &&
    (match prev_funding, current_funding with
     | some p, some c => decide (p * c < 0)
     | _, _ => false)

/-- The funding slice of one collector cycle for one symbol: dedup the
fetched rate against the cache (src/services/collector.py lines 102-111),
commit the funding batch to storage (line 147), then run the capitulation
check with `current_funding` read from the cache (line 164) and
`prev_funding` read back as the latest stored funding row
(src/services/anomaly.py line 167). -/
def cycle_capitulation (store : List (ℕ × ℕ × ℚ × ℕ)) (cache : Option ℚ)
    (cycle_ts sid : ℕ) (rate : ℚ) (nft : ℕ)
    (has_funding_spike has_oi_surge : Bool) : Bool :=
  let dedup := funding_dedup cycle_ts sid rate nft cache
  let store' := store ++ dedup.1
  capitulation_fires has_funding_spike has_oi_surge
    (get_latest_funding store') dedup.2

/-! ### Exchange client retry loop (src/services/binance_api.py lines 11-48) -/

inductive HttpOutcome where
  | ok (body : ℕ)
  | status (code : ℕ) (retry_after : Option ℚ)
  | net_error
deriving DecidableEq

/-- The client `_request` modelled over the per-attempt outcomes.  Returns the
result, the slept durations in order, and the number of attempts
consumed.  A 200 returns the body; 403 and 404 surrender immediately with
an absent result; a code in `RETRY_CODES` sleeps `Retry-After` when the
header is present, else the current back-off `wait`, then doubles `wait`
capped at `RETRY_MAX_WAIT` and retries; other codes surrender; a network
error sleeps `wait`, doubles it and retries.  At most five attempts. -/
def request_loop : List HttpOutcome → ℕ → ℚ → Option ℕ × List ℚ × ℕ
  | _, 0, _ => (none, [], 0)
  | [], _ + 1, _ => (none, [], 0)
  | HttpOutcome.ok b :: _, _ + 1, _ => (some b, [], 1)
  | HttpOutcome.status code ra :: rest, fuel + 1, wait =>
    if code = 403 then (none, [], 1)
    else if code = 404 then (none, [], 1)
    else if code ∈ RETRY_CODES then
      let r := request_loop rest fuel (min (wait * 2) RETRY_MAX_WAIT)
      (r.1, ra.getD wait :: r.2.1, r.2.2 + 1)
    else (none, [], 1)
  | HttpOutcome.net_error :: rest, fuel + 1, wait =>
    let r := request_loop rest fuel (min (wait * 2) RETRY_MAX_WAIT)
    (r.1, wait :: r.2.1, r.2.2 + 1)

def request_run (responses : List HttpOutcome) : Option ℕ × List ℚ × ℕ :=
  request_loop responses 5 1

/-! ### Notifier worker and mass-alert grouping
(src/services/notifier.py lines 66-118) -/

structure NotifyMsg where
  priority : ℕ
  timestamp : ℚ
  text : List String
  msg_type : String
deriving DecidableEq

/-- Python `str.endswith`. -/
def str_ends_with (s suffix : String) : Bool :=
  decide (suffix.data.length ≤ s.data.length)
    && s.data.drop (s.data.length - suffix.data.length) == suffix.data

/-- Python `str.rstrip(":")`: drop every trailing colon. -/
def rstrip_colon (s : String) : String :=
  String.mk ((s.data.reverse.dropWhile (fun c => c == ':')).reverse)

def usdt_str : String := "USDT"

def usdt_colon_str : String := "USDT:"

/-- Symbol extraction of `_group_mass_alert` (src/services/notifier.py
lines 104-109): the first whitespace token ending in `USDT` or `USDT:`,
with trailing colons stripped. -/
def extract_symbol (text : List String) : Option String :=
  (text.find? (fun p =>
    str_ends_with p usdt_str || str_ends_with p usdt_colon_str)).map
    rstrip_colon

def anomaly_str : String := "anomaly"

/-- The method `_group_mass_alert` (src/services/notifier.py lines 102-118) modelled
as its components: the listed symbols (at most six), the message count,
and the kind. -/
def group_mass_alert (messages : List NotifyMsg) : List String × ℕ × String :=
  let symbols := messages.filterMap (fun m => extract_symbol m.text)
  (symbols.take 6, messages.length,
   ((messages.head?).map (fun m => m.msg_type)).getD anomaly_str)

inductive NotifyAction where
  | individual (text : List String)
  | mass (symbols : List String) (count : ℕ) (kind : String)
deriving DecidableEq

def empty_str : String := ""

/-- One dequeue step of `Notifier._worker` (src/services/notifier.py
lines 77-100): append the dequeued message, restrict the window to the
last `MASS_ALERT_WINDOW` seconds, and when strictly more than
`MASS_ALERT_THRESHOLD` messages of the dequeued kind remain, send one
aggregated mass alert instead of the individual message and purge the
window entries of that kind. -/
def worker_step (recent : List NotifyMsg) (msg : NotifyMsg) (now : ℚ) :
    NotifyAction × List NotifyMsg :=
  let recent1 := (recent ++ [msg]).filter
    (fun m => decide (now - m.timestamp < MASS_ALERT_WINDOW))
  if msg.msg_type ≠ empty_str then
    let same_type := recent1.filter (fun m => m.msg_type == msg.msg_type)
    if MASS_ALERT_THRESHOLD < same_type.length then
      (NotifyAction.mass (group_mass_alert same_type).1 same_type.length
        msg.msg_type,
       recent1.filter (fun m => !(m.msg_type == msg.msg_type)))
    else (NotifyAction.individual msg.text, recent1)
  else (NotifyAction.individual msg.text, recent1)

def worker_run (recent : List NotifyMsg) (inputs : List (NotifyMsg × ℚ)) :
    List NotifyAction × List NotifyMsg :=
  inputs.foldl (fun acc p =>
    let step := worker_step acc.2 p.1 p.2
    (acc.1 ++ [step.1], step.2)) ([], recent)

def oi_surge_str : String := "oi_surge"

def alert_tok : String := "ALERT:"

/-- Scenario S6: six `oi_surge` alerts for distinct symbols enqueued
within 60 seconds, dequeued at half-second pacing. -/
def s6_inputs : List (NotifyMsg × ℚ) :=
  [(⟨1, 0, [alert_tok, "AAAUSDT"], oi_surge_str⟩, 0),
   (⟨1, 1/2, [alert_tok, "BBBUSDT"], oi_surge_str⟩, 1/2),
   (⟨1, 1, [alert_tok, "CCCUSDT"], oi_surge_str⟩, 1),
   (⟨1, 3/2, [alert_tok, "DDDUSDT"], oi_surge_str⟩, 3/2),
   (⟨1, 2, [alert_tok, "EEEUSDT"], oi_surge_str⟩, 2),
   (⟨1, 5/2, [alert_tok, "FFFUSDT"], oi_surge_str⟩, 5/2)]

/-- The sliding-window same-kind selection inside `Notifier._worker`
(src/services/notifier.py lines 77-88): append the dequeued message,
keep only entries younger than `MASS_ALERT_WINDOW`, keep only the
dequeued message's kind. -/
def window_same_type (recent : List NotifyMsg) (msg : NotifyMsg) (now : ℚ) :
    List NotifyMsg :=
  ((recent ++ [msg]).filter
    (fun m => decide (now - m.timestamp < MASS_ALERT_WINDOW))).filter
    (fun m => m.msg_type == msg.msg_type)

/-- The notifier window just before the sixth S6 dequeue. -/
def s6_recent5 : List NotifyMsg :=
  [⟨1, 0, [alert_tok, "AAAUSDT"], oi_surge_str⟩,
   ⟨1, 1/2, [alert_tok, "BBBUSDT"], oi_surge_str⟩,
   ⟨1, 1, [alert_tok, "CCCUSDT"], oi_surge_str⟩,
   ⟨1, 3/2, [alert_tok, "DDDUSDT"], oi_surge_str⟩,
   ⟨1, 2, [alert_tok, "EEEUSDT"], oi_surge_str⟩]

def s6_msg6 : NotifyMsg := ⟨1, 5/2, [alert_tok, "FFFUSDT"], oi_surge_str⟩

def btc_str : String := "BTCUSDT"

/-! ## Theorems -/

/-! ### Generic helpers -/

theorem if_false_else (c : Prop) [Decidable c] (b : Bool) :
    (if c then false else b) = (!decide c && b) := by
  by_cases h : c <;> simp [h]

theorem if_false_bool {α : Sort _} (x y : α) :
    (if (false : Bool) = true then x else y) = y := rfl

theorem if_true_bool {α : Sort _} (x y : α) :
    (if (true : Bool) = true then x else y) = x := rfl

theorem if_zero_eq_zero {α : Sort _} (x y : α) :
    (if (0 : ℕ) = 0 then x else y) = x := rfl

theorem pct_changes_length (w : List ℚ) : (pct_changes w).length = w.length := by
  cases w <;> simp [pct_changes]

theorem pct_changes_ne_nil (base : ℚ) (rest : List ℚ) :
    pct_changes (base :: rest) ≠ [] := by
  simp [pct_changes]

/-! ### Run scanner lemmas -/

/-- Appending one below-threshold element does not change the best run
found by the live scanner: the element only resets the current run. -/
theorem run_scan_live_aux_append_last (θ x : ℚ) (hx : ¬ θ ≤ x) :
    ∀ (l : List ℚ) (i bs bl cs cl : ℕ),
      run_scan_live_aux θ (l ++ [x]) i bs bl cs cl
        = run_scan_live_aux θ l i bs bl cs cl
  | [], i, bs, bl, cs, cl => by
      simp only [List.nil_append, run_scan_live_aux]
      rw [if_neg hx]
  | p :: l, i, bs, bl, cs, cl => by
      simp only [List.cons_append, run_scan_live_aux]
      by_cases hp : θ ≤ p
      · simp only [if_pos hp]
        by_cases hup : bl < cl + 1
        · simp only [if_pos hup]
          exact run_scan_live_aux_append_last θ x hx l _ _ _ _ _
        · simp only [if_neg hup]
          exact run_scan_live_aux_append_last θ x hx l _ _ _ _ _
      · simp only [if_neg hp]
        exact run_scan_live_aux_append_last θ x hx l _ _ _ _ _

theorem run_scan_live_append_last (θ x : ℚ) (l : List ℚ) (hx : ¬ θ ≤ x) :
    run_scan_live θ (l ++ [x]) = run_scan_live θ l :=
  run_scan_live_aux_append_last θ x hx l 0 0 0 0 0

/-- The best run reported by the live scanner lies inside the scanned
indices. -/
theorem run_scan_live_aux_bound (θ : ℚ) (l : List ℚ) :
    ∀ (i bs bl cs cl : ℕ),
      (0 < bl → bs + bl ≤ i) → (0 < cl → cs + cl = i) →
      0 < (run_scan_live_aux θ l i bs bl cs cl).2 →
      (run_scan_live_aux θ l i bs bl cs cl).1
        + (run_scan_live_aux θ l i bs bl cs cl).2 ≤ i + l.length := by
  induction l with
  | nil =>
    intro i bs bl cs cl hb _ hpos
    simp only [run_scan_live_aux] at hpos ⊢
    simpa using hb hpos
  | cons p l ih =>
    intro i bs bl cs cl hb hc hpos
    simp only [run_scan_live_aux] at hpos ⊢
    by_cases hp : θ ≤ p
    · simp only [if_pos hp] at hpos ⊢
      by_cases hup : bl < cl + 1
      · simp only [if_pos hup] at hpos ⊢
        have h2 := ih (i + 1) (if cl = 0 then i else cs) (cl + 1)
          (if cl = 0 then i else cs) (cl + 1)
          (by
            intro _
            by_cases hcl : cl = 0
            · simp [hcl]
            · have := hc (Nat.pos_of_ne_zero hcl)
              simp only [if_neg hcl]
              omega)
          (by
            intro _
            by_cases hcl : cl = 0
            · simp [hcl]
            · have := hc (Nat.pos_of_ne_zero hcl)
              simp only [if_neg hcl]
              omega)
          hpos
        simp only [List.length_cons]
        omega
      · simp only [if_neg hup] at hpos ⊢
        have h2 := ih (i + 1) bs bl (if cl = 0 then i else cs) (cl + 1)
          (by intro h0; have := hb h0; omega)
          (by
            intro _
            by_cases hcl : cl = 0
            · simp [hcl]
            · have := hc (Nat.pos_of_ne_zero hcl)
              simp only [if_neg hcl]
              omega)
          hpos
        simp only [List.length_cons]
        omega
    · simp only [if_neg hp] at hpos ⊢
      have h2 := ih (i + 1) bs bl cs 0
        (by intro h0; have := hb h0; omega)
        (by intro h0; omega)
        hpos
      simp only [List.length_cons]
      omega

/-- The best-run length reported by the live scanner never decreases. -/
theorem run_scan_live_aux_mono (θ : ℚ) (l : List ℚ) :
    ∀ (i bs bl cs cl : ℕ), bl ≤ (run_scan_live_aux θ l i bs bl cs cl).2 := by
  induction l with
  | nil =>
    intro i bs bl cs cl
    simp [run_scan_live_aux]
  | cons p l ih =>
    intro i bs bl cs cl
    simp only [run_scan_live_aux]
    by_cases hp : θ ≤ p
    · simp only [if_pos hp]
      by_cases hup : bl < cl + 1
      · simp only [if_pos hup]
        have := ih (i + 1) (if cl = 0 then i else cs) (cl + 1)
          (if cl = 0 then i else cs) (cl + 1)
        omega
      · simp only [if_neg hup]
        exact ih (i + 1) bs bl (if cl = 0 then i else cs) (cl + 1)
    · simp only [if_neg hp]
      exact ih (i + 1) bs bl cs 0

theorem run_scan_live_bound (θ : ℚ) (l : List ℚ) :
    0 < (run_scan_live θ l).2 →
    (run_scan_live θ l).1 + (run_scan_live θ l).2 ≤ l.length := by
  intro hpos
  have := run_scan_live_aux_bound θ l 0 0 0 0 0
    (by intro h0; omega) (by intro h0; omega) hpos
  simpa using this

/-! ### Slice maximum lemmas -/

theorem max_slice_zero (f : List ℚ) (s : ℕ) : max_slice f s 0 = f.getD s 0 := by
  simp [max_slice]

theorem max_slice_succ (f : List ℚ) (s n : ℕ) (h : s + n < f.length) :
    max_slice f s (n + 1) = max (max_slice f s n) (f.getD (s + n) 0) := by
  have h1 : (f.drop s)[n]? = f[s + n]? := List.getElem?_drop f s n
  have h2 : f[s + n]? = some (f[s + n]) := List.getElem?_eq_getElem h
  have h3 : f.getD (s + n) 0 = f[s + n] := by
    simp [List.getD_eq_getElem?_getD, h2]
  unfold max_slice
  rw [List.take_succ, h1, h2, h3]
  simp

theorem max_slice_append (l : List ℚ) (x : ℚ) (s n : ℕ)
    (hs : s < l.length) (hn : s + n ≤ l.length) :
    max_slice (l ++ [x]) s n = max_slice l s n := by
  unfold max_slice
  rw [List.drop_append_of_le_length (by omega),
    List.take_append_of_le_length (by simp; omega)]
  have hd : (l ++ [x]).getD s 0 = l.getD s 0 := by
    simp [List.getD_eq_getElem?_getD, List.getElem?_append_left hs]
  rw [hd]

/-! ### Correspondence between the two run scanners

The backtest scanner returns the same best-run length as the live scanner
and, when a run exists, the best peak equals the slice maximum over the
live scanner's best run. -/

theorem run_scan_corr_aux (θ : ℚ) (f : List ℚ) (l : List ℚ) :
    ∀ (i bs bl cs cl : ℕ) (bp rp : ℚ) (act : Bool),
      l = f.drop i →
      act = decide (0 < cl) →
      (0 < cl → cs + cl = i ∧ rp = max_slice f cs cl) →
      (0 < bl → bs + bl ≤ i ∧ bp = max_slice f bs bl) →
      run_scan_bt_aux θ l bl bp act cl rp
        = ((run_scan_live_aux θ l i bs bl cs cl).2,
           if (run_scan_live_aux θ l i bs bl cs cl).2 = 0 then bp
           else max_slice f (run_scan_live_aux θ l i bs bl cs cl).1
                  (run_scan_live_aux θ l i bs bl cs cl).2) := by
  induction l with
  | nil =>
    intro i bs bl cs cl bp rp act _ _ _ hbest
    simp only [run_scan_bt_aux, run_scan_live_aux]
    by_cases hbl : bl = 0
    · simp [hbl]
    · simp only [if_neg hbl]
      exact Prod.ext rfl (hbest (Nat.pos_of_ne_zero hbl)).2
  | cons p l ih =>
    intro i bs bl cs cl bp rp act hdrop hact hcur hbest
    have hilen : i < f.length := by
      by_contra hge
      push_neg at hge
      have hnil : f.drop i = [] := List.drop_eq_nil_of_le hge
      rw [hnil] at hdrop
      exact (List.cons_ne_nil p l) hdrop
    have hpi : f[i]? = some p := by
      have h0 : (f.drop i)[0]? = f[i + 0]? := List.getElem?_drop f i 0
      rw [← hdrop] at h0
      simp only [List.getElem?_cons_zero, Nat.add_zero] at h0
      exact h0.symm
    have hgd : f.getD i 0 = p := by
      simp [List.getD_eq_getElem?_getD, hpi]
    have hl : l = f.drop (i + 1) := by
      have hdd : f.drop (i + 1) = (f.drop i).drop 1 := by
        rw [List.drop_drop]
      rw [hdd, ← hdrop]
      rfl
    simp only [run_scan_bt_aux, run_scan_live_aux]
    by_cases hp : θ ≤ p
    · by_cases hcl : cl = 0
      · have hact' : act = false := by simp [hact, hcl]
        have hms1 : max_slice f i 1 = p := by
          rw [show (1 : ℕ) = 0 + 1 from rfl,
            max_slice_succ f i 0 (by omega), max_slice_zero]
          simp [List.getD_eq_getElem?_getD, hpi]
        simp only [hact', if_false_bool, if_pos hcl, if_pos hp]
        simp only [hcl, Nat.zero_add]
        by_cases hup : bl < 1
        · simp only [if_pos hup]
          have h2 := ih (i + 1) i 1 i 1 p p true hl (by simp)
            (fun _ => ⟨by omega, hms1.symm⟩)
            (fun _ => ⟨by omega, hms1.symm⟩)
          have hm := run_scan_live_aux_mono θ l (i + 1) i 1 i 1
          rw [if_neg (by omega)] at h2
          rw [if_neg (by omega)]
          exact h2
        · simp only [if_neg hup]
          exact ih (i + 1) bs bl i 1 bp p true hl (by simp)
            (fun _ => ⟨by omega, hms1.symm⟩)
            (fun h => ⟨by have := (hbest h).1; omega, (hbest h).2⟩)
      · have hclpos : 0 < cl := Nat.pos_of_ne_zero hcl
        have hact' : act = true := by simp [hact, hclpos]
        obtain ⟨hcsi, hrp⟩ := hcur hclpos
        have hrp' : max rp p = max_slice f cs (cl + 1) := by
          rw [hrp, max_slice_succ f cs cl (by omega), hcsi, hgd]
        simp only [if_pos hact', if_neg hcl, if_pos hp]
        by_cases hup : bl < cl + 1
        · simp only [if_pos hup]
          have h2 := ih (i + 1) cs (cl + 1) cs (cl + 1) (max rp p) (max rp p)
            true hl (by simp)
            (fun _ => ⟨by omega, hrp'⟩)
            (fun _ => ⟨by omega, hrp'⟩)
          have hm := run_scan_live_aux_mono θ l (i + 1) cs (cl + 1) cs (cl + 1)
          rw [if_neg (by omega)] at h2
          rw [if_neg (by omega)]
          exact h2
        · simp only [if_neg hup]
          exact ih (i + 1) bs bl cs (cl + 1) bp (max rp p) true hl
            (by simp)
            (fun _ => ⟨by omega, hrp'⟩)
            (fun h => ⟨by have := (hbest h).1; omega, (hbest h).2⟩)
    · simp only [if_neg hp]
      exact ih (i + 1) bs bl cs 0 bp 0 false hl (by simp)
        (fun h0 => absurd h0 (by omega))
        (fun h => ⟨by have := (hbest h).1; omega, (hbest h).2⟩)

theorem run_scan_corr (θ : ℚ) (l : List ℚ) :
    run_scan_bt θ l
      = ((run_scan_live θ l).2,
         if (run_scan_live θ l).2 = 0 then 0
         else max_slice l (run_scan_live θ l).1 (run_scan_live θ l).2) := by
  unfold run_scan_bt run_scan_live
  exact run_scan_corr_aux θ l l 0 0 0 0 0 0 0 false (List.drop_zero l).symm
    (by simp)
    (fun h0 => absurd h0 (by omega))
    (fun h0 => absurd h0 (by omega))

/-! ### Propositional characterizations of the two window detectors -/

theorem flush_fires_iff (base : ℚ) (rest : List ℚ) :
    check_oi_flush_fires (base :: rest) = true ↔
      (¬ (base :: rest).length < OI_FLUSH_LOOKBACK ∧
       ¬ base ≤ 0 ∧
       ¬ (run_scan_live OI_BUILDUP_THRESHOLD (pct_changes (base :: rest))).2
           < OI_BUILDUP_MIN_POINTS ∧
       ¬ ((run_scan_live OI_BUILDUP_THRESHOLD (pct_changes (base :: rest))).1
             + (run_scan_live OI_BUILDUP_THRESHOLD (pct_changes (base :: rest))).2 - 1
           < (pct_changes (base :: rest)).length - OI_BUILDUP_MIN_POINTS) ∧
       ¬ OI_FLUSH_CURRENT_MAX ≤ (pct_changes (base :: rest)).getLastD 0 ∧
       ¬ (max_slice (pct_changes (base :: rest))
             (run_scan_live OI_BUILDUP_THRESHOLD (pct_changes (base :: rest))).1
             (run_scan_live OI_BUILDUP_THRESHOLD (pct_changes (base :: rest))).2
           - (pct_changes (base :: rest)).getLastD 0 < OI_FLUSH_DROP_PCT)) := by
  simp only [check_oi_flush_fires, if_false_else, Bool.and_true, Bool.and_eq_true,
    Bool.not_eq_true', decide_eq_false_iff_not]

theorem signal_fires_iff (base : ℚ) (rest : List ℚ) :
    find_signal_window (base :: rest) = true ↔
      (¬ base ≤ 0 ∧
       ¬ FLUSH_CURRENT_MAX ≤ (pct_changes (base :: rest)).getLastD 0 ∧
       ¬ (run_scan_bt BUILDUP_THRESHOLD (pct_changes (base :: rest)).dropLast).1
           < BUILDUP_MIN_POINTS ∧
       ¬ ((run_scan_bt BUILDUP_THRESHOLD (pct_changes (base :: rest)).dropLast).2
           - (pct_changes (base :: rest)).getLastD 0 < FLUSH_DROP_PCT)) := by
  simp only [find_signal_window, if_false_else, Bool.and_true, Bool.and_eq_true,
    Bool.not_eq_true', decide_eq_false_iff_not]

theorem run_reaches_end_iff (pcts : List ℚ) :
    run_reaches_end pcts = true ↔
      pcts.length - OI_BUILDUP_MIN_POINTS
        ≤ (run_scan_live OI_BUILDUP_THRESHOLD pcts).1
            + (run_scan_live OI_BUILDUP_THRESHOLD pcts).2 - 1 := by
  simp [run_reaches_end]

/-- C3 (amended): over a 25-sample window (the slice
`oi_points[i - WINDOW_SIZE : i + 1]` scanned by `find_signals`), the
backtest emits a signal exactly when the live `check_oi_flush` criteria
hold *except for the recency requirement*: `check_oi_flush` fires iff the
backtest window check fires AND the live detector's best buildup run
reaches into the final `OI_BUILDUP_MIN_POINTS` indices of the window.
`find_signals` has no recency check, so the two agree only on windows
whose best run reaches the window's end. -/
theorem c3_backtest_signal_refines_live_flush (w : List ℚ)
    (hw : w.length = WINDOW_SIZE + 1) :
    check_oi_flush_fires w = true ↔
      (find_signal_window w = true ∧ run_reaches_end (pct_changes w) = true) := by
  cases w with
  | nil => simp [WINDOW_SIZE] at hw
  | cons base rest =>
    have hlen25 : (base :: rest).length = 25 := by
      simpa [WINDOW_SIZE] using hw
    have hplen : (pct_changes (base :: rest)).length = 25 := by
      rw [pct_changes_length]
      exact hlen25
    have h12 : OI_BUILDUP_MIN_POINTS = 12 := rfl
    rw [flush_fires_iff, signal_fires_iff, run_reaches_end_iff]
    rw [show FLUSH_CURRENT_MAX = OI_FLUSH_CURRENT_MAX from rfl,
      show BUILDUP_THRESHOLD = OI_BUILDUP_THRESHOLD from rfl,
      show BUILDUP_MIN_POINTS = OI_BUILDUP_MIN_POINTS from rfl,
      show FLUSH_DROP_PCT = OI_FLUSH_DROP_PCT from rfl]
    have hguard : ¬ (base :: rest).length < OI_FLUSH_LOOKBACK := by
      rw [hlen25]
      simp [OI_FLUSH_LOOKBACK]
    by_cases hb : base ≤ 0
    · constructor
      · rintro ⟨_, hb', _⟩
        exact absurd hb hb'
      · rintro ⟨⟨hb', _⟩, _⟩
        exact absurd hb hb'
    · by_cases hc : OI_FLUSH_CURRENT_MAX ≤ (pct_changes (base :: rest)).getLastD 0
      · constructor
        · rintro ⟨_, _, _, _, hc', _⟩
          exact absurd hc hc'
        · rintro ⟨⟨_, hc', _, _⟩, _⟩
          exact absurd hc hc'
      · have hθcur : ¬ OI_BUILDUP_THRESHOLD
            ≤ (pct_changes (base :: rest)).getLastD 0 := by
          push_neg at hc ⊢
          have h23 : OI_FLUSH_CURRENT_MAX < OI_BUILDUP_THRESHOLD := by
            norm_num [OI_FLUSH_CURRENT_MAX, OI_BUILDUP_THRESHOLD]
          linarith
        have hne := pct_changes_ne_nil base rest
        have hsplit : (pct_changes (base :: rest)).dropLast
            ++ [(pct_changes (base :: rest)).getLastD 0]
            = pct_changes (base :: rest) := by
          rw [List.getLastD_eq_getLast?, List.getLast?_eq_getLast_of_ne_nil hne,
            Option.getD_some]
          exact List.dropLast_append_getLast hne
        have hscan : run_scan_live OI_BUILDUP_THRESHOLD
              ((pct_changes (base :: rest)).dropLast)
            = run_scan_live OI_BUILDUP_THRESHOLD (pct_changes (base :: rest)) := by
          conv_rhs => rw [← hsplit]
          exact (run_scan_live_append_last OI_BUILDUP_THRESHOLD _ _ hθcur).symm
        have hbt := run_scan_corr OI_BUILDUP_THRESHOLD
          ((pct_changes (base :: rest)).dropLast)
        rw [hscan] at hbt
        by_cases hbl : (run_scan_live OI_BUILDUP_THRESHOLD
            (pct_changes (base :: rest))).2 < OI_BUILDUP_MIN_POINTS
        · constructor
          · rintro ⟨_, _, hbl', _⟩
            exact absurd hbl hbl'
          · rintro ⟨⟨_, _, hbl', _⟩, _⟩
            rw [hbt] at hbl'
            exact absurd hbl hbl'
        · have hblpos : 0 < (run_scan_live OI_BUILDUP_THRESHOLD
              (pct_changes (base :: rest))).2 := by
            omega
          have hbound := run_scan_live_bound OI_BUILDUP_THRESHOLD
            ((pct_changes (base :: rest)).dropLast)
          rw [hscan] at hbound
          have hbound' := hbound hblpos
          have hdl : ((pct_changes (base :: rest)).dropLast).length = 24 := by
            rw [List.length_dropLast, hplen]
          rw [hdl] at hbound'
          have hms : max_slice ((pct_changes (base :: rest)).dropLast)
                (run_scan_live OI_BUILDUP_THRESHOLD (pct_changes (base :: rest))).1
                (run_scan_live OI_BUILDUP_THRESHOLD (pct_changes (base :: rest))).2
              = max_slice (pct_changes (base :: rest))
                (run_scan_live OI_BUILDUP_THRESHOLD (pct_changes (base :: rest))).1
                (run_scan_live OI_BUILDUP_THRESHOLD (pct_changes (base :: rest))).2 := by
            have happ := max_slice_append ((pct_changes (base :: rest)).dropLast)
              ((pct_changes (base :: rest)).getLastD 0)
              (run_scan_live OI_BUILDUP_THRESHOLD (pct_changes (base :: rest))).1
              (run_scan_live OI_BUILDUP_THRESHOLD (pct_changes (base :: rest))).2
              (by rw [hdl]; omega) (by rw [hdl]; omega)
            rw [hsplit] at happ
            exact happ.symm
          rw [hbt]
          simp only
          rw [if_neg (by omega), hms]
          constructor
          · rintro ⟨_, h2, h3, h4, h5, h6⟩
            exact ⟨⟨h2, h5, h3, h6⟩, by omega⟩
          · rintro ⟨⟨h2, h5, h3, h6⟩, hrec⟩
            exact ⟨hguard, h2, h3, by omega, h5, h6⟩

/-- C3 (counterexample): a 25-sample window whose 12-point buildup run
ends at index 12 — outside the final 12 indices of the window — produces
a backtest `find_signals` signal but no live `oi_flush` anomaly: the two
detectors are not equivalent on a shared window. -/
theorem c3_recency_counterexample :
    find_signal_window early_run_window = true ∧
    check_oi_flush_fires early_run_window = false := by
  constructor <;> with_unfolding_all rfl

/-- C3 witness: the amended equivalence instantiated at the concrete
25-sample early-run window. -/
theorem c3_refinement_witness :
    check_oi_flush_fires early_run_window = true ↔
      (find_signal_window early_run_window = true ∧
       run_reaches_end (pct_changes early_run_window) = true) :=
  c3_backtest_signal_refines_live_flush early_run_window (by
    with_unfolding_all rfl)

/-- C4 (counterexample): on the realizable S1 window the longest run of
pct values `≥ 3.0` found by `check_oi_flush` has 15 points — it starts at
index 5 and ends at index 19 (values 3.1 .. 4.0, 3.0) — not 17 points
ending at index 17 as the claim states; the detector still fires. -/
theorem c4_s1_run_counterexample :
    check_oi_flush_fires s1_window = true ∧
    run_scan_live OI_BUILDUP_THRESHOLD (pct_changes s1_window) = (5, 15) ∧
    ¬ (run_scan_live OI_BUILDUP_THRESHOLD (pct_changes s1_window)).2 = 17 := by
  refine ⟨?_, ?_, ?_⟩
  · with_unfolding_all rfl
  · with_unfolding_all rfl
  · intro h
    have : (run_scan_live OI_BUILDUP_THRESHOLD (pct_changes s1_window)).2 = 15 := by
      with_unfolding_all rfl
    omega

/-- C4 (amended): on the 24-sample S1 window (pct 0 at the base index,
S1 values at indices 1..23) `check_oi_flush` emits exactly one `oi_flush`
anomaly; the longest buildup run is 15 points, indices 5..19; the peak pct
over the run is 5.2, the current pct is 0.3, and the drop is 4.9. -/
theorem c4_s1_flush_amended :
    check_oi_flush_fires s1_window = true ∧
    run_scan_live OI_BUILDUP_THRESHOLD (pct_changes s1_window) = (5, 15) ∧
    max_slice (pct_changes s1_window) 5 15 = 26 / 5 ∧
    (pct_changes s1_window).getLastD 0 = 3 / 10 ∧
    max_slice (pct_changes s1_window) 5 15 - (pct_changes s1_window).getLastD 0
      = 49 / 10 := by
  refine ⟨?_, ?_, ?_, ?_, ?_⟩ <;> with_unfolding_all rfl

/-- C5: if the current pct change of the window (relative to its base
sample) is not strictly below `OI_FLUSH_CURRENT_MAX = 2.0`, neither the
live detector `check_oi_flush` nor the backtest window check of
`find_signals` emits anything for that window. -/
theorem c5_current_max_suppresses (w : List ℚ)
    (h : OI_FLUSH_CURRENT_MAX ≤ (pct_changes w).getLastD 0) :
    check_oi_flush_fires w = false ∧ find_signal_window w = false := by
  constructor
  · cases w with
    | nil => rfl
    | cons base rest =>
      simp only [check_oi_flush_fires]
      repeat' split
      all_goals first
        | rfl
        | exact absurd h (by assumption)
  · cases w with
    | nil => rfl
    | cons base rest =>
      simp only [find_signal_window]
      repeat' split
      all_goals first
        | rfl
        | exact absurd h (by assumption)

/-- C5 witness: scenario S2 — the S1 series with last pct 2.1 — is
suppressed by the current-max rule in both detectors. -/
theorem c5_current_max_witness :
    check_oi_flush_fires s2_window = false ∧ find_signal_window s2_window = false :=
  c5_current_max_suppresses s2_window (by with_unfolding_all rfl)

/-! ### C6: trade simulation -/

theorem simulate_trade_aux_first_tp (tp sl : ℚ) (e : (ℤ × ℚ) × ℚ)
    (rest : List ((ℤ × ℚ) × ℚ)) (hhit : e.2 ≤ -tp) :
    ∀ (pre : List ((ℤ × ℚ) × ℚ)) (k : ℕ),
      (∀ q ∈ pre, ¬ q.2 ≤ -tp ∧ ¬ sl ≤ q.2) →
      simulate_trade_aux (pre ++ e :: rest) tp sl 0 k
        = some ⟨ExitKind.TP, e.1.2, e.1.1, tp, k + (pre.length + 1)⟩
  | [], k, _ => by
      simp only [List.nil_append, simulate_trade_aux, if_pos hhit,
        List.length_nil, Nat.zero_add]
  | q :: pre, k, hpre => by
      have hq := hpre q (List.mem_cons_self q pre)
      simp only [List.cons_append, simulate_trade_aux, if_neg hq.1, if_neg hq.2,
        if_neg (by omega : ¬ (0 < 0 ∧ 0 ≤ k + 1))]
      refine (simulate_trade_aux_first_tp tp sl e rest hhit pre (k + 1)
        (fun r hr => hpre r (List.mem_cons_of_mem q hr))).trans ?_
      simp only [List.length_cons, Option.some.injEq, TradeExit.mk.injEq,
        eq_self_iff_true, true_and]
      omega

/-- C6: at every scanned index `simulate_trade` tests the take-profit
condition before the stop-loss condition: if no exit condition fires
before the entry `e` and `e` satisfies the TP condition (whether or not
it also satisfies the SL condition), the trade closes as TP at `e` with
result `+tp` and hold `pre.length + 1` points.  `max_hold = 0` is the
backtest's `MAX_HOLD_POINTS` configuration. -/
theorem c6_tp_checked_before_sl (pre : List ((ℤ × ℚ) × ℚ))
    (e : (ℤ × ℚ) × ℚ) (rest : List ((ℤ × ℚ) × ℚ)) (tp sl : ℚ)
    (hpre : ∀ q ∈ pre, ¬ q.2 ≤ -tp ∧ ¬ sl ≤ q.2)
    (hhit : e.2 ≤ -tp) :
    simulate_trade (pre ++ e :: rest) tp sl 0
      = some ⟨ExitKind.TP, e.1.2, e.1.1, tp, pre.length + 1⟩ := by
  have h := simulate_trade_aux_first_tp tp sl e rest hhit pre 0 hpre
  simpa [simulate_trade] using h

/-- C6 witness: scenario S5 — entry 100, subsequent prices
100.5, 99, 98, 97, TP = 2.0, SL = 1.5 — closes as TP at the third path
point with result +2.0% and hold 3 points. -/
theorem c6_s5_witness :
    simulate_trade (build_price_path s5_points 0 100) 2 (3 / 2) 0
      = some ⟨ExitKind.TP, 98, 3, 2, 3⟩ := by
  have hpath : build_price_path s5_points 0 100
      = [((1, 201 / 2), 1 / 2), ((2, 99), -1)]
        ++ ((3, 98), -2) :: [((4, 97), -3)] := by
    with_unfolding_all rfl
  rw [hpath]
  have h := c6_tp_checked_before_sl [((1, 201 / 2), 1 / 2), ((2, 99), -1)]
    ((3, 98), -2) [((4, 97), -3)] 2 (3 / 2)
    (by
      intro q hq
      simp only [List.mem_cons, List.not_mem_nil, or_false] at hq
      rcases hq with h1 | h1 <;> subst h1 <;> constructor <;> norm_num)
    (by norm_num)
  simpa using h

/-! ### C2: grid search -/

/-- C2 (counterexample): a single signal whose price path is `[+0.5%]`
runs out without hitting TP = 3 or SL = 1.5; `simulate_combo` still
counts it as a closed trade — closed at the last price with
P&L `-0.5` — so the recorded combo has `trades = 1`, not `0`. -/
theorem c2_runout_counted_counterexample :
    simulate_combo [[1 / 2]] 3 (3 / 2)
      = some ⟨3, 3 / 2, 2, -(1 / 2), -(1 / 2), 0, 1, 0, 1, 0⟩ := by
  with_unfolding_all rfl

theorem simulate_trade_aux_none (tp sl : ℚ) :
    ∀ (path : List ((ℤ × ℚ) × ℚ)) (k : ℕ),
      (∀ q ∈ path, ¬ q.2 ≤ -tp ∧ ¬ sl ≤ q.2) →
      simulate_trade_aux path tp sl 0 k = none
  | [], _, _ => rfl
  | q :: path, k, hmiss => by
      have hq := hmiss q (List.mem_cons_self q path)
      simp only [simulate_trade_aux, if_neg hq.1, if_neg hq.2,
        if_neg (by omega : ¬ (0 < 0 ∧ 0 ≤ k + 1))]
      exact simulate_trade_aux_none tp sl path (k + 1)
        (fun r hr => hmiss r (List.mem_cons_of_mem q hr))

/-- C2 (amended): the grid search records a combination only when the
simulation counted at least 3 trades; but a signal whose path runs out
before hitting TP or SL is not an open trade there — it is closed at the
last path price with P&L `-pcts[-1]` and counted.  (Only signals with an
empty price path are excluded.  The open-trade semantics belongs to the
main backtest's `simulate_trade`, which returns no trade on run-out.) -/
theorem c2_grid_search_amended :
    (∀ (signals : List (List ℚ)) (c : ComboStats),
      c ∈ optimize_for_signals signals 3 → 3 ≤ c.trades) ∧
    (∀ (pcts : List ℚ) (tp sl : ℚ), ¬ pcts = [] →
      combo_scan pcts tp sl = none →
      signal_pnl pcts tp sl = some (-(pcts.getLastD 0))) ∧
    (∀ (path : List ((ℤ × ℚ) × ℚ)) (tp sl : ℚ),
      (∀ q ∈ path, ¬ q.2 ≤ -tp ∧ ¬ sl ≤ q.2) →
      simulate_trade path tp sl 0 = none) := by
  refine ⟨?_, ?_, ?_⟩
  · intro signals c hc
    unfold optimize_for_signals at hc
    simp only [List.mem_flatten, List.mem_map] at hc
    obtain ⟨sub, ⟨tp, _, rfl⟩, hsub⟩ := hc
    simp only [List.mem_filterMap] at hsub
    obtain ⟨sl, _, hmatch⟩ := hsub
    cases hcombo : simulate_combo signals tp sl with
    | none =>
      rw [hcombo] at hmatch
      dsimp only at hmatch
      exact absurd hmatch (by simp)
    | some stats =>
      rw [hcombo] at hmatch
      dsimp only at hmatch
      by_cases h3 : 3 ≤ stats.trades
      · rw [if_pos h3] at hmatch
        simp only [Option.some.injEq] at hmatch
        subst hmatch
        exact h3
      · rw [if_neg h3] at hmatch
        exact absurd hmatch (by simp)
  · intro pcts tp sl hne hnone
    unfold signal_pnl
    rw [if_neg (by simpa [List.isEmpty_iff] using hne), hnone]
    rfl
  · intro path tp sl hmiss
    exact simulate_trade_aux_none tp sl path 0 hmiss

/-- C2 witness: the amended statement instantiated concretely — every
combo recorded for three always-TP signals has at least 3 trades, and the
run-out signal `[+0.5%]` is closed at `-0.5`. -/
theorem c2_grid_search_witness :
    3 ≤ (⟨1 / 2, 1 / 4, 2, 3 / 2, 1 / 2, 100, 3, 3, 0, 999⟩ : ComboStats).trades ∧
    signal_pnl [1 / 2] 3 (3 / 2) = some (-(1 / 2)) ∧
    simulate_trade [((1, 201 / 2), 1 / 2)] 3 (3 / 2) 0 = none := by
  refine ⟨?_, ?_, ?_⟩
  · exact c2_grid_search_amended.1 [[-10], [-10], [-10]]
      ⟨1 / 2, 1 / 4, 2, 3 / 2, 1 / 2, 100, 3, 3, 0, 999⟩
      (List.mem_of_mem_head? (by
        show (optimize_for_signals [[-10], [-10], [-10]] 3).head?
          = some ⟨1 / 2, 1 / 4, 2, 3 / 2, 1 / 2, 100, 3, 3, 0, 999⟩
        with_unfolding_all rfl))
  · have h := c2_grid_search_amended.2.1 [1 / 2] 3 (3 / 2) (by simp)
      (by with_unfolding_all rfl)
    simpa using h
  · exact c2_grid_search_amended.2.2 [((1, 201 / 2), 1 / 2)] 3 (3 / 2)
      (by
        intro q hq
        simp only [List.mem_singleton] at hq
        subst hq
        constructor <;> norm_num)

/-! ### C7 and C10: collector dedup and OI rows -/

/-- After processing a fetched value, the OI cache holds that value. -/
theorem collect_symbol_oi_cache (cycle_ts sid : ℕ) (symbol : String)
    (mark_prices : List (String × ℚ)) (oi_contracts : ℚ) (cached : Option ℚ) :
    (collect_symbol_oi cycle_ts sid symbol mark_prices oi_contracts cached).2
      = some oi_contracts := by
  simp only [collect_symbol_oi]
  split_ifs with h
  · rfl
  · push_neg at h
    exact h.2

/-- After processing a fetched rate, the funding cache holds that rate. -/
theorem funding_dedup_cache (cycle_ts sid : ℕ) (rate : ℚ) (nft : ℕ)
    (cached : Option ℚ) :
    (funding_dedup cycle_ts sid rate nft cached).2 = some rate := by
  simp only [funding_dedup]
  split_ifs with h
  · exact h.2
  · rfl

/-- C7: a fetched `oi_contracts` equal to the cached value produces no OI
row; a fetched funding rate equal to the cached value produces no funding
row; hence a second cycle with the same values as the first writes zero
new OI and funding rows for the symbol. -/
theorem c7_dedup_skips_equal_values :
    (∀ (cycle_ts sid : ℕ) (symbol : String)
       (mark_prices : List (String × ℚ)) (oi : ℚ) (cached : Option ℚ),
      cached = some oi →
      (collect_symbol_oi cycle_ts sid symbol mark_prices oi cached).1 = none) ∧
    (∀ (cycle_ts sid : ℕ) (rate : ℚ) (nft : ℕ) (cached : Option ℚ),
      cached = some rate →
      (funding_dedup cycle_ts sid rate nft cached).1 = []) ∧
    (∀ (ts1 ts2 sid : ℕ) (symbol : String)
       (mark_prices : List (String × ℚ)) (oi : ℚ) (c0 : Option ℚ),
      (collect_symbol_oi ts2 sid symbol mark_prices oi
        (collect_symbol_oi ts1 sid symbol mark_prices oi c0).2).1 = none) ∧
    (∀ (ts1 ts2 sid : ℕ) (rate : ℚ) (nft : ℕ) (c0 : Option ℚ),
      (funding_dedup ts2 sid rate nft
        (funding_dedup ts1 sid rate nft c0).2).1 = []) := by
  have hoi : ∀ (cycle_ts sid : ℕ) (symbol : String)
      (mark_prices : List (String × ℚ)) (oi : ℚ) (cached : Option ℚ),
      cached = some oi →
      (collect_symbol_oi cycle_ts sid symbol mark_prices oi cached).1 = none := by
    intro cycle_ts sid symbol mark_prices oi cached hc
    subst hc
    simp [collect_symbol_oi]
  have hfr : ∀ (cycle_ts sid : ℕ) (rate : ℚ) (nft : ℕ) (cached : Option ℚ),
      cached = some rate →
      (funding_dedup cycle_ts sid rate nft cached).1 = [] := by
    intro cycle_ts sid rate nft cached hc
    subst hc
    simp [funding_dedup]
  refine ⟨hoi, hfr, ?_, ?_⟩
  · intro ts1 ts2 sid symbol mark_prices oi c0
    exact hoi ts2 sid symbol mark_prices oi _
      (collect_symbol_oi_cache ts1 sid symbol mark_prices oi c0)
  · intro ts1 ts2 sid rate nft c0
    exact hfr ts2 sid rate nft _ (funding_dedup_cache ts1 sid rate nft c0)

/-- C7 witness: with the cache holding the same values, neither an OI row
nor a funding row is written for BTCUSDT. -/
theorem c7_dedup_witness :
    (collect_symbol_oi 600 1 btc_str [] 5 (some 5)).1 = none ∧
    (funding_dedup 600 1 (1 / 100) 0 (some (1 / 100))).1 = [] ∧
    (collect_symbol_oi 600 1 btc_str [] 5
      (collect_symbol_oi 300 1 btc_str [] 5 none).2).1 = none ∧
    (funding_dedup 600 1 (1 / 100) 0
      (funding_dedup 300 1 (1 / 100) 0 none).2).1 = [] :=
  ⟨c7_dedup_skips_equal_values.1 600 1 btc_str [] 5 (some 5) rfl,
   c7_dedup_skips_equal_values.2.1 600 1 (1 / 100) 0 (some (1 / 100)) rfl,
   c7_dedup_skips_equal_values.2.2.1 300 600 1 btc_str [] 5 none,
   c7_dedup_skips_equal_values.2.2.2 300 600 1 (1 / 100) 0 none⟩

/-- C10: every emitted OI row satisfies
`oi_usd = oi_contracts × mark_price`; a symbol absent from the
premium-index map gets mark price 0; and such a symbol still gets a row —
with `mark_price = 0` and `oi_usd = 0` — whenever its `oi_contracts`
differs from the cached value. -/
theorem c10_oi_row_invariant :
    (∀ (cycle_ts sid : ℕ) (symbol : String)
       (mark_prices : List (String × ℚ)) (oi : ℚ) (cached : Option ℚ)
       (r : OiRow),
      (collect_symbol_oi cycle_ts sid symbol mark_prices oi cached).1 = some r →
      r.oi_usd = r.oi_contracts * r.mark_price) ∧
    (∀ (mark_prices : List (String × ℚ)) (symbol : String),
      mark_prices.find? (fun e => e.1 == symbol) = none →
      mark_price_get mark_prices symbol = 0) ∧
    (∀ (cycle_ts sid : ℕ) (symbol : String)
       (mark_prices : List (String × ℚ)) (oi : ℚ) (cached : Option ℚ),
      mark_prices.find? (fun e => e.1 == symbol) = none →
      ¬ cached = some oi →
      (collect_symbol_oi cycle_ts sid symbol mark_prices oi cached).1
        = some ⟨cycle_ts, sid, oi, 0, 0⟩) := by
  refine ⟨?_, ?_, ?_⟩
  · intro cycle_ts sid symbol mark_prices oi cached r h
    simp only [collect_symbol_oi] at h
    split_ifs at h
    simp only [Option.some.injEq] at h
    rw [← h]
  · intro mark_prices symbol h
    simp [mark_price_get, h]
  · intro cycle_ts sid symbol mark_prices oi cached hfind hc
    simp [collect_symbol_oi, mark_price_get, hfind, hc]

/-- C10 witness: a symbol absent from the premium-index response, with a
changed `oi_contracts`, still yields a row with `mark_price = 0` and
`oi_usd = 0 = oi_contracts × 0`. -/
theorem c10_oi_row_witness :
    (collect_symbol_oi 300 1 btc_str [] 5 none).1 = some ⟨300, 1, 5, 0, 0⟩ ∧
    (⟨300, 1, 5, 0, 0⟩ : OiRow).oi_usd
      = (⟨300, 1, 5, 0, 0⟩ : OiRow).oi_contracts
        * (⟨300, 1, 5, 0, 0⟩ : OiRow).mark_price ∧
    mark_price_get [] btc_str = 0 := by
  have h1 := c10_oi_row_invariant.2.2 300 1 btc_str [] 5 none rfl (by simp)
  exact ⟨h1, c10_oi_row_invariant.1 300 1 btc_str [] 5 none _ h1,
    c10_oi_row_invariant.2.1 [] btc_str rfl⟩

/-! ### C1: combined capitulation in the full cycle pipeline -/

theorem latest_fold_mem (rows : List (ℕ × ℕ × ℚ × ℕ)) :
    ∀ (acc : Option (ℕ × ℕ × ℚ × ℕ)) (b : ℕ × ℕ × ℚ × ℕ),
      rows.foldl (fun acc r =>
        match acc with
        | none => some r
        | some c => if c.1 < r.1 then some r else some c) acc = some b →
      b ∈ rows ∨ acc = some b := by
  induction rows with
  | nil =>
    intro acc b h
    exact Or.inr h
  | cons r rows ih =>
    intro acc b h
    simp only [List.foldl_cons] at h
    rcases ih _ b h with hmem | hacc
    · exact Or.inl (List.mem_cons_of_mem r hmem)
    · cases acc with
      | none =>
        dsimp only at hacc
        simp only [Option.some.injEq] at hacc
        exact Or.inl (hacc ▸ List.mem_cons_self r rows)
      | some c =>
        dsimp only at hacc
        by_cases hlt : c.1 < r.1
        · rw [if_pos hlt] at hacc
          simp only [Option.some.injEq] at hacc
          exact Or.inl (hacc ▸ List.mem_cons_self r rows)
        · rw [if_neg hlt] at hacc
          exact Or.inr hacc

/-- Appending a funding row with a strictly newer timestamp makes its
rate the latest stored rate. -/
theorem get_latest_funding_append (rows : List (ℕ × ℕ × ℚ × ℕ))
    (r0 : ℕ × ℕ × ℚ × ℕ) (hfresh : ∀ r ∈ rows, r.1 < r0.1) :
    get_latest_funding (rows ++ [r0]) = some r0.2.2.1 := by
  unfold get_latest_funding
  rw [List.foldl_append]
  cases hacc : rows.foldl (fun acc r =>
      match acc with
      | none => some r
      | some c => if c.1 < r.1 then some r else some c) none with
  | none => rfl
  | some b =>
    have hb : b ∈ rows := by
      rcases latest_fold_mem rows none b hacc with h | h
      · exact h
      · exact absurd h (by simp)
    have hlt : b.1 < r0.1 := hfresh b hb
    simp only [List.foldl_cons, List.foldl_nil]
    rw [if_pos hlt]
    rfl

/-- In the cycle pipeline the capitulation check can never fire: the
funding batch is committed before detection, so `get_latest_funding`
returns the rate of the current cycle, which equals the cached
`current_funding`; the sign-flip product is then a square. -/
theorem cycle_capitulation_never_fires (store : List (ℕ × ℕ × ℚ × ℕ))
    (cache : Option ℚ) (cycle_ts sid : ℕ) (rate : ℚ) (nft : ℕ)
    (hfs hos : Bool)
    (hcache : cache = get_latest_funding store)
    (hfresh : ∀ r ∈ store, r.1 < cycle_ts) :
    cycle_capitulation store cache cycle_ts sid rate nft hfs hos = false := by
  unfold cycle_capitulation funding_dedup
  split_ifs with h
  · -- dedup skipped: cache already holds the rate
    obtain ⟨-, hsome⟩ := h
    dsimp only
    simp only [List.append_nil]
    rw [← hcache, hsome]
    unfold capitulation_fires
    have hsq : ¬ (rate * rate < 0) := not_lt.mpr (mul_self_nonneg rate)
    simp [hsq]
  · -- row appended: the latest stored rate is the current rate
    dsimp only
    rw [get_latest_funding_append store (cycle_ts, sid, rate, nft) hfresh]
    unfold capitulation_fires
    have hsq : ¬ (rate * rate < 0) := not_lt.mpr (mul_self_nonneg rate)
    simp [hsq]

/-- C1: scenario S3 through the full cycle pipeline.  The stored previous
funding rate is +0.0015 and hydrates the cache; the cycle fetches
−0.0012 (funding_spike fires: |−0.0012| > 0.001) with a 1h OI change of
−0.15 (oi_surge fires: |−0.15| > 0.10).  The claim expects a
`combined_capitulation`; the code commits the funding batch before
detection and reads the just-written current rate back as the "previous"
rate, so the sign-flip test compares −0.0012 with itself and no
capitulation is emitted. -/
theorem c1_s3_capitulation_not_emitted :
    funding_spike_fires (-3 / 2500) = true ∧
    oi_surge_fires (-3 / 20) = true ∧
    get_latest_funding [(1000, 7, 3 / 2000, 5)] = some (3 / 2000) ∧
    capitulation_fires true true (some (3 / 2000)) (some (-3 / 2500)) = true ∧
    cycle_capitulation [(1000, 7, 3 / 2000, 5)] (some (3 / 2000)) 1300 7
      (-3 / 2500) 5 true true = false := by
  refine ⟨?_, ?_, ?_, ?_, ?_⟩ <;> with_unfolding_all rfl

/-! ### C8: exchange client retry policy -/

/-- C8: the request loop makes at most 5 attempts; a 403 surrenders with
an absent result on the first attempt (no retry); a 404 returns an
absent result on the first attempt (no retry); a retryable status sleeps
the Retry-After value when present — else the current back-off wait,
which starts at 1 s — and retries with the wait doubled (capped by the
recursion at `RETRY_MAX_WAIT = 30`); five headerless retryable responses
produce the back-off sleeps 1, 2, 4, 8, 16 and an absent result after
exactly 5 attempts. -/
theorem c8_retry_policy :
    (∀ (rs : List HttpOutcome) (fuel : ℕ) (wait : ℚ),
      (request_loop rs fuel wait).2.2 ≤ fuel) ∧
    (∀ (ra : Option ℚ) (rest : List HttpOutcome),
      request_run (HttpOutcome.status 403 ra :: rest) = (none, [], 1)) ∧
    (∀ (ra : Option ℚ) (rest : List HttpOutcome),
      request_run (HttpOutcome.status 404 ra :: rest) = (none, [], 1)) ∧
    (∀ (code : ℕ) (ra : Option ℚ) (rest : List HttpOutcome),
      code ∈ RETRY_CODES →
      request_run (HttpOutcome.status code ra :: rest)
        = ((request_loop rest 4 2).1,
           ra.getD 1 :: (request_loop rest 4 2).2.1,
           (request_loop rest 4 2).2.2 + 1)) ∧
    request_run (List.replicate 5 (HttpOutcome.status 429 none))
      = (none, [1, 2, 4, 8, 16], 5) := by
  refine ⟨?_, ?_, ?_, ?_, ?_⟩
  · intro rs
    induction rs with
    | nil =>
      intro fuel wait
      cases fuel <;> simp [request_loop]
    | cons r rest ih =>
      intro fuel wait
      cases fuel with
      | zero => simp [request_loop]
      | succ n =>
        cases r with
        | ok b => simp [request_loop]
        | status code ra =>
          have := ih n (min (wait * 2) RETRY_MAX_WAIT)
          simp only [request_loop]
          split_ifs <;> simp <;> omega
        | net_error =>
          have := ih n (min (wait * 2) RETRY_MAX_WAIT)
          simp only [request_loop]
          omega
  · intro ra rest
    rfl
  · intro ra rest
    rfl
  · intro code ra rest hcode
    have h403 : ¬ code = 403 := by
      intro h
      subst h
      simp [RETRY_CODES] at hcode
    have h404 : ¬ code = 404 := by
      intro h
      subst h
      simp [RETRY_CODES] at hcode
    have hmin : min ((1 : ℚ) * 2) RETRY_MAX_WAIT = 2 := by
      norm_num [RETRY_MAX_WAIT]
    simp only [request_run, request_loop, if_neg h403, if_neg h404,
      if_pos hcode, hmin]
  · with_unfolding_all rfl

/-- C8 witness: concrete instances of the retry policy — attempts bounded
by the fuel, 403 and 404 surrendered without retry, and a 500 with
`Retry-After: 7` slept 7 s before retrying. -/
theorem c8_retry_witness :
    (request_loop [] 5 1).2.2 ≤ 5 ∧
    request_run [HttpOutcome.status 403 none] = (none, [], 1) ∧
    request_run [HttpOutcome.status 404 none] = (none, [], 1) ∧
    request_run [HttpOutcome.status 500 (some 7)]
      = ((request_loop [] 4 2).1, 7 :: (request_loop [] 4 2).2.1,
         (request_loop [] 4 2).2.2 + 1) := by
  refine ⟨c8_retry_policy.1 [] 5 1, c8_retry_policy.2.1 none [],
    c8_retry_policy.2.2.1 none [], ?_⟩
  have h := c8_retry_policy.2.2.2.1 500 (some 7) [] (by simp [RETRY_CODES])
  simpa using h

/-! ### C9: notifier mass-alert grouping -/

/-- C9: when the dequeued message's kind has strictly more than
`MASS_ALERT_THRESHOLD = 5` entries in the 60-second window (the dequeued
message included), the worker emits a single aggregated mass alert — its
symbol list capped at six — instead of the individual message, and the
surviving window holds no entry of that kind; six `oi_surge` alerts for
distinct symbols within 60 s yield five individual sends followed by
exactly one MASS ALERT, after which the window holds no `oi_surge`
entry. -/
theorem c9_mass_alert_grouping :
    (∀ (recent : List NotifyMsg) (msg : NotifyMsg) (now : ℚ),
      ¬ msg.msg_type = empty_str →
      MASS_ALERT_THRESHOLD < (window_same_type recent msg now).length →
      (worker_step recent msg now).1
          = NotifyAction.mass
              (group_mass_alert (window_same_type recent msg now)).1
              (window_same_type recent msg now).length msg.msg_type
        ∧ ∀ m ∈ (worker_step recent msg now).2,
            ¬ m.msg_type = msg.msg_type) ∧
    (∀ msgs : List NotifyMsg, (group_mass_alert msgs).1.length ≤ 6) ∧
    (worker_run [] s6_inputs).1
      = [NotifyAction.individual [alert_tok, "AAAUSDT"],
         NotifyAction.individual [alert_tok, "BBBUSDT"],
         NotifyAction.individual [alert_tok, "CCCUSDT"],
         NotifyAction.individual [alert_tok, "DDDUSDT"],
         NotifyAction.individual [alert_tok, "EEEUSDT"],
         NotifyAction.mass
           ["AAAUSDT", "BBBUSDT", "CCCUSDT", "DDDUSDT", "EEEUSDT", "FFFUSDT"]
           6 oi_surge_str] ∧
    (worker_run [] s6_inputs).2 = [] := by
  refine ⟨?_, ?_, ?_, ?_⟩
  · intro recent msg now hkind hcount
    simp only [worker_step, window_same_type] at hcount ⊢
    rw [if_pos hkind, if_pos hcount]
    refine ⟨rfl, ?_⟩
    intro m hm
    have h2 := (List.mem_filter.mp hm).2
    intro heq
    rw [heq] at h2
    simp at h2
  · intro msgs
    simp only [group_mass_alert, List.length_take]
    omega
  · with_unfolding_all rfl
  · with_unfolding_all rfl

/-- C9 witness: the sixth S6 dequeue — five `oi_surge` messages already
in the window — produces the aggregated mass alert listing the six
symbols. -/
theorem c9_mass_alert_witness :
    (worker_step s6_recent5 s6_msg6 (5 / 2)).1
      = NotifyAction.mass
          ["AAAUSDT", "BBBUSDT", "CCCUSDT", "DDDUSDT", "EEEUSDT", "FFFUSDT"]
          6 oi_surge_str := by
  have hlen : (window_same_type s6_recent5 s6_msg6 (5 / 2)).length = 6 := by
    with_unfolding_all rfl
  have h5 : MASS_ALERT_THRESHOLD = 5 := rfl
  have h := (c9_mass_alert_grouping.1 s6_recent5 s6_msg6 (5 / 2)
    (by simp [s6_msg6, oi_surge_str, empty_str])
    (by omega)).1
  refine h.trans ?_
  rw [hlen]
  have : (group_mass_alert (window_same_type s6_recent5 s6_msg6 (5 / 2))).1
      = ["AAAUSDT", "BBBUSDT", "CCCUSDT", "DDDUSDT", "EEEUSDT", "FFFUSDT"] := by
    with_unfolding_all rfl
  rw [this]
  rfl

end MarketData
